import Mathlib

/-!
Verification of the UCP merchant commerce engine (TypeScript sources) against its
natural-language specification.

The TypeScript sources are shallowly embedded:
- JavaScript `Number` values produced by `parseFloat` on decimal strings are modelled
  as exact rationals (the exact decimal value of the string); `Number.prototype.toFixed(2)`
  is modelled by its ECMAScript ideal semantics on that rational (sign extracted first,
  magnitude rounded to the nearest hundredth, ties away from zero).  All concrete inputs
  used in theorems below are chosen so that the IEEE-754 double evaluation performed by
  the running code agrees with this model (they stay clear of decimal midpoints, or sit
  on midpoints whose double images land on the same side as the model).
- `Map` objects become association lists, `Date.now()` / `crypto.randomUUID()` become
  explicit parameters, thrown exceptions become `Except`, and `null` becomes `Option`.
-/

namespace UCP

/-! ## Money and decimal-string arithmetic (src/sdk/validation.ts) -/

/-- Money value: a decimal amount carried as a string plus a currency code
(`MoneySchema` in src/sdk/schemas; the schema constrains `amount` only to be a string). -/
structure Money where
  amount : String
  currency : String
deriving DecidableEq, Repr

/-- Numeric value of a list of ASCII digit characters, most significant first. -/
def digitsVal (l : List Char) : ℕ :=
  l.foldl (fun a c => 10 * a + (c.toNat - 48)) 0

/-- True when `l` is a non-empty list of ASCII digits (one `\d+` group of the regex). -/
def isDigits (l : List Char) : Bool :=
  !l.isEmpty && l.all (·.isDigit)

/-- Split a character list at the first `'.'`; returns the part before it and,
when a dot occurs, the part after it. -/
def splitAtDot : List Char → List Char × Option (List Char)
  | [] => ([], none)
  | c :: rest =>
    if c = '.' then ([], some rest)
    else
      let (ip, fp) := splitAtDot rest
      (c :: ip, fp)

/-- Combined model of the regex test `^-?\d+(\.\d+)?$` used by `isValidMoneyAmount`
and of `parseFloat` on a string matching it: returns the exact rational value of the
string when it matches the regex, and `none` otherwise. -/
def parseDecimal? (s : String) : Option ℚ :=
  let neg : Bool := s.data.head? == some '-'
  let l' := if neg then s.data.tail else s.data
  let p := splitAtDot l'
  if isDigits p.1 then
    match p.2 with
    | none =>
      some (if neg then -(digitsVal p.1 : ℚ) else (digitsVal p.1 : ℚ))
    | some fp =>
      if isDigits fp then
        let v : ℚ := digitsVal p.1 + (digitsVal fp : ℚ) / (10 ^ fp.length)
        some (if neg then -v else v)
      else none
  else none

/-- Model of `isValidMoneyAmount`: the string must match `^-?\d+(\.\d+)?$` and its
parsed value must be non-negative (`num >= 0` after `parseFloat`). -/
def isValidMoneyAmount (s : String) : Bool :=
  match parseDecimal? s with
  | some q => decide (0 ≤ q)
  | none => false

/-- Model of `parseMoneyAmount`: `null` unless `isValidMoneyAmount` holds, else the
parsed value. -/
def parseMoneyAmount (s : String) : Option ℚ :=
  if isValidMoneyAmount s then parseDecimal? s else none

/-- The ASCII character of a decimal digit. -/
def digitChar : ℕ → Char
  | 0 => '0'
  | 1 => '1'
  | 2 => '2'
  | 3 => '3'
  | 4 => '4'
  | 5 => '5'
  | 6 => '6'
  | 7 => '7'
  | 8 => '8'
  | _ => '9'

/-- Decimal digits of `n`, most significant first; `fuel` bounds the recursion and
any `fuel > n` is enough. -/
def natDigitsAux : ℕ → ℕ → List Char
  | 0, _ => []
  | fuel + 1, n =>
    if n < 10 then [digitChar n]
    else natDigitsAux fuel (n / 10) ++ [digitChar (n % 10)]

/-- Decimal rendering of a natural number. -/
def natToString (n : ℕ) : String :=
  ⟨natDigitsAux (n + 1) n⟩

/-- Left-pad a two-digit cent count with a zero. -/
def pad2 (n : ℕ) : String :=
  if n < 10 then "0" ++ natToString n else natToString n

/-- Render a non-negative rational with exactly two decimal places, rounding the
value to the nearest hundredth with ties upward (ECMAScript `toFixed` ideal rule). -/
def formatNonneg2 (q : ℚ) : String :=
  let n : ℕ := (⌊q * 100 + 1 / 2⌋).toNat
  natToString (n / 100) ++ "." ++ pad2 (n % 100)

/-- Model of `formatMoneyAmount` (`amount.toFixed(2)`): ECMAScript extracts the sign
first, then rounds the magnitude to two decimal places. -/
def formatMoneyAmount (q : ℚ) : String :=
  if q < 0 then "-" ++ formatNonneg2 (-q) else formatNonneg2 q

/-- Model of `addMoney`: `null` on currency mismatch or invalid amounts, otherwise
the sum re-rendered with two decimals. -/
def addMoney (a b : Money) : Option Money :=
  if a.currency ≠ b.currency then none
  else
    match parseMoneyAmount a.amount, parseMoneyAmount b.amount with
    | some qa, some qb => some ⟨formatMoneyAmount (qa + qb), a.currency⟩
    | _, _ => none

/-- Model of `subtractMoney`: `null` on currency mismatch or invalid amounts,
otherwise the difference re-rendered with two decimals. -/
def subtractMoney (a b : Money) : Option Money :=
  if a.currency ≠ b.currency then none
  else
    match parseMoneyAmount a.amount, parseMoneyAmount b.amount with
    | some qa, some qb => some ⟨formatMoneyAmount (qa - qb), a.currency⟩
    | _, _ => none

/-- Model of `compareMoney`: `-1`, `0` or `1` on comparable inputs, `null` otherwise. -/
def compareMoney (a b : Money) : Option ℤ :=
  if a.currency ≠ b.currency then none
  else
    match parseMoneyAmount a.amount, parseMoneyAmount b.amount with
    | some qa, some qb =>
      if qa < qb then some (-1) else if qb < qa then some 1 else some 0
    | _, _ => none

/-- A decimal string in the money grammar whose value is strictly negative. -/
def isNegativeDecimalString (s : String) : Bool :=
  match parseDecimal? s with
  | some q => decide (q < 0)
  | none => false

/-! ## Association-list stores (models of the `Map` objects) -/

/-- Lookup in an association list (`Map.get`). -/
def alGet {α : Type} : List (String × α) → String → Option α
  | [], _ => none
  | (k', v) :: rest, k => if k' == k then some v else alGet rest k

/-- Insert-or-replace in an association list (`Map.set`). -/
def alSet {α : Type} : List (String × α) → String → α → List (String × α)
  | [], k, v => [(k, v)]
  | (k', v') :: rest, k, v =>
    if k' == k then (k, v) :: rest else (k', v') :: alSet rest k v

/-! ## Payment intents and the mock payment handler (src/payments/types.ts,
`MockPaymentHandler`).  Timestamps (`createdAt`, `updatedAt`, `capturedAt`) and the
`Date.now()` suffix of generated ids are omitted: no claim observes them. -/

/-- The `PaymentStatus` union type. -/
inductive PaymentStatus where
  | pending
  | requiresAction
  | processing
  | authorized
  | captured
  | failed
  | cancelled
  | refunded
  | partiallyRefunded
deriving DecidableEq, Repr

/-- Printable form of a status, used in the mock handler's error messages. -/
def PaymentStatus.text : PaymentStatus → String
  | .pending => "pending"
  | .requiresAction => "requires_action"
  | .processing => "processing"
  | .authorized => "authorized"
  | .captured => "captured"
  | .failed => "failed"
  | .cancelled => "cancelled"
  | .refunded => "refunded"
  | .partiallyRefunded => "partially_refunded"

/-- Payment intent record (fields the claims observe). -/
structure PaymentIntent where
  id : String
  status : PaymentStatus
  amount : Money
  checkoutSessionId : String
  errorMessage : Option String := none
deriving DecidableEq, Repr

/-- Refund record returned by `MockPaymentHandler.refund`. -/
structure RefundRecord where
  id : String
  paymentIntentId : String
  amount : Money
  status : String
deriving DecidableEq, Repr

/-- Mutable state held by a `MockPaymentHandler` instance, together with its test
control flags. -/
structure MockPaymentHandlerState where
  paymentIntents : List (String × PaymentIntent) := []
  idCounter : ℕ := 0
  shouldFailPayment : Bool := false
  shouldRequireAction : Bool := false
  failureMessage : String := "Payment declined"
deriving DecidableEq, Repr

namespace MockPaymentHandler

/-- Model of `createPaymentIntent`: allocates a fresh intent whose initial status is
`failed` / `requires_action` / `pending` according to the control flags. -/
def createPaymentIntent (st : MockPaymentHandlerState)
    (amount : Money) (checkoutSessionId : String) :
    PaymentIntent × MockPaymentHandlerState :=
  let counter := st.idCounter + 1
  let id := "pi_mock_" ++ toString counter
  let status : PaymentStatus :=
    if st.shouldFailPayment then .failed
    else if st.shouldRequireAction then .requiresAction
    else .pending
  let errorMessage : Option String :=
    if st.shouldFailPayment then some st.failureMessage else none
  let intent : PaymentIntent :=
    { id := id, status := status, amount := amount,
      checkoutSessionId := checkoutSessionId, errorMessage := errorMessage }
  (intent, { st with idCounter := counter,
                     paymentIntents := alSet st.paymentIntents id intent })

/-- Model of `confirmPayment`: throws when the intent is unknown; otherwise sets the
status to `failed` or `authorized` according to `shouldFailPayment`, with no check of
the intent's current status. -/
def confirmPayment (st : MockPaymentHandlerState) (paymentIntentId : String) :
    Except String (PaymentIntent × MockPaymentHandlerState) :=
  match alGet st.paymentIntents paymentIntentId with
  | none => .error ("Payment intent not found: " ++ paymentIntentId)
  | some intent =>
    let intent' :=
      if st.shouldFailPayment then
        { intent with status := .failed, errorMessage := some st.failureMessage }
      else
        { intent with status := .authorized }
    .ok (intent', { st with paymentIntents := alSet st.paymentIntents paymentIntentId intent' })

/-- Model of `capturePayment`: throws when the intent is unknown or not `authorized`;
a partial amount replaces the intent amount; the status becomes `captured`. -/
def capturePayment (st : MockPaymentHandlerState) (paymentIntentId : String)
    (amount? : Option Money) :
    Except String (PaymentIntent × MockPaymentHandlerState) :=
  match alGet st.paymentIntents paymentIntentId with
  | none => .error ("Payment intent not found: " ++ paymentIntentId)
  | some intent =>
    if intent.status ≠ .authorized then
      .error ("Cannot capture payment in status: " ++ intent.status.text)
    else
      let intent' := { intent with
        amount := amount?.getD intent.amount, status := .captured }
      .ok (intent', { st with paymentIntents := alSet st.paymentIntents paymentIntentId intent' })

/-- Model of `cancelPayment`: throws when the intent is unknown or `captured`;
otherwise the status becomes `cancelled` with no further check. -/
def cancelPayment (st : MockPaymentHandlerState) (paymentIntentId : String) :
    Except String (PaymentIntent × MockPaymentHandlerState) :=
  match alGet st.paymentIntents paymentIntentId with
  | none => .error ("Payment intent not found: " ++ paymentIntentId)
  | some intent =>
    if intent.status = .captured then
      .error "Cannot cancel captured payment, use refund instead"
    else
      let intent' := { intent with status := .cancelled }
      .ok (intent', { st with paymentIntents := alSet st.paymentIntents paymentIntentId intent' })

/-- Model of `refund`: throws when the intent is unknown or not `captured`; a full
refund (no amount, or an amount string equal to the intent's amount string) moves the
intent to `refunded`, otherwise to `partially_refunded`. -/
def refund (st : MockPaymentHandlerState) (paymentIntentId : String)
    (amount? : Option Money) :
    Except String (RefundRecord × MockPaymentHandlerState) :=
  match alGet st.paymentIntents paymentIntentId with
  | none => .error ("Payment intent not found: " ++ paymentIntentId)
  | some intent =>
    if intent.status ≠ .captured then
      .error ("Cannot refund payment in status: " ++ intent.status.text)
    else
      let counter := st.idCounter + 1
      let refundId := "re_mock_" ++ toString counter
      let record : RefundRecord :=
        { id := refundId, paymentIntentId := paymentIntentId,
          amount := amount?.getD intent.amount, status := "succeeded" }
      let newStatus : PaymentStatus :=
        match amount? with
        | none => .refunded
        | some m => if m.amount = intent.amount.amount then .refunded else .partiallyRefunded
      let intent' := { intent with status := newStatus }
      .ok (record, { st with idCounter := counter,
                             paymentIntents := alSet st.paymentIntents paymentIntentId intent' })

end MockPaymentHandler

/-- Canonical payment-intent transition relation, written from the spec's words
(spec section 4.2): `pending -> authorized | failed | requires_action | cancelled`;
`requires_action -> authorized | failed | cancelled`; `authorized -> captured |
cancelled`; `captured -> refunded | partially_refunded`; `partially_refunded ->
refunded | partially_refunded`; `failed`, `cancelled`, `refunded` terminal.  Used
only to compare the mock handler's behaviour against the claimed relation. -/
def canonicalTransition : PaymentStatus → PaymentStatus → Bool
  | .pending, .authorized => true
  | .pending, .failed => true
  | .pending, .requiresAction => true
  | .pending, .cancelled => true
  | .requiresAction, .authorized => true
  | .requiresAction, .failed => true
  | .requiresAction, .cancelled => true
  | .authorized, .captured => true
  | .authorized, .cancelled => true
  | .captured, .refunded => true
  | .captured, .partiallyRefunded => true
  | .partiallyRefunded, .refunded => true
  | .partiallyRefunded, .partiallyRefunded => true
  | _, _ => false

/-! ## Checkout server state and routes (src/server/ucp-server.ts).  Fields no claim
observes (customer, addresses, metadata, timestamps, orderNumber, line items) are
omitted; `crypto.randomUUID()` becomes an explicit fresh-id parameter. -/

/-- Cart totals as carried by a checkout session. -/
structure Cart where
  subtotal : Money
  tax : Option Money := none
  shipping : Option Money := none
  discount : Option Money := none
  total : Money
deriving DecidableEq, Repr

/-- Checkout session record; `status` is the status string (`"PENDING"`,
`"COMPLETED"`, ...) exactly as the server stores it. -/
structure CheckoutSession where
  id : String
  status : String
  cart : Cart
deriving DecidableEq, Repr

/-- Discount kind (`"PERCENTAGE" | "FIXED_AMOUNT"`). -/
inductive DiscountType where
  | percentage
  | fixedAmount
deriving DecidableEq, Repr

/-- Entry of the `DISCOUNT_CODES` table. -/
structure DiscountDef where
  id : String
  name : String
  type : DiscountType
  value : ℚ
deriving DecidableEq, Repr

/-- Discount recorded on a session when applied. -/
structure AppliedDiscount where
  discountId : String
  code : String
  name : String
  type : DiscountType
  amount : Money
deriving DecidableEq, Repr

/-- Model of JavaScript's `toUpperCase()` on the ASCII code strings used here. -/
def toUpperCase (s : String) : String :=
  ⟨s.data.map Char.toUpper⟩

/-- The server's sample discount-code table. -/
def DISCOUNT_CODES (code : String) : Option DiscountDef :=
  if code = "SAVE10" then some ⟨"disc-1", "10% Off", .percentage, 10⟩
  else if code = "SAVE20" then some ⟨"disc-2", "20% Off", .percentage, 20⟩
  else if code = "FLAT5" then some ⟨"disc-3", "$5 Off", .fixedAmount, 5⟩
  else if code = "WELCOME" then some ⟨"disc-4", "Welcome Discount", .percentage, 15⟩
  else none

/-- Order record (fields the claims observe). -/
structure Order where
  id : String
  checkoutSessionId : String
  total : Money
  paymentId : String
deriving DecidableEq, Repr

/-- The server's three in-memory stores. -/
structure ServerState where
  sessions : List (String × CheckoutSession) := []
  orders : List (String × Order) := []
  appliedDiscounts : List (String × List AppliedDiscount) := []
deriving DecidableEq, Repr

/-- JSON response of a checkout route, projected to the fields the claims observe. -/
structure Response where
  status : ℕ
  error : Option String := none
  success : Bool := false
  orderId : Option String := none
  newTotal : Option Money := none
deriving DecidableEq, Repr

/-- Value of `parseFloat` on a route-level amount string; theorems only invoke this
on strings in the decimal grammar, where `parseFloat` yields the exact value. -/
def num (s : String) : ℚ := (parseDecimal? s).getD 0

/-- Discount amount computed by the apply route: a percentage of the subtotal, or a
fixed amount capped at the subtotal (`Math.min`). -/
def discountAmountOf (subtotalAmount : String) (discount : DiscountDef) : ℚ :=
  match discount.type with
  | .percentage => num subtotalAmount * (discount.value / 100)
  | .fixedAmount => min discount.value (num subtotalAmount)

/-- Model of `POST /ucp/checkout/:sessionId/discount`: validates the code, rejects a
second application of the same discount id, computes the amount (percentage of the
subtotal, or a fixed amount capped at the subtotal), records it, and sets the new
total to `max(0, currentTotal - discountAmount)` rendered with two decimals. -/
def applyDiscountRoute (st : ServerState) (sessionId code : String) :
    Response × ServerState :=
  match alGet st.sessions sessionId with
  | none => ({ status := 404, error := some "Session not found" }, st)
  | some session =>
    match DISCOUNT_CODES (toUpperCase code) with
    | none => ({ status := 400, error := some "Invalid discount code" }, st)
    | some discount =>
      let existing := (alGet st.appliedDiscounts sessionId).getD []
      if existing.any (fun d => d.discountId == discount.id) then
        ({ status := 400, error := some "Discount already applied" }, st)
      else
        let discountAmount : ℚ := discountAmountOf session.cart.subtotal.amount discount
        let applied : AppliedDiscount :=
          { discountId := discount.id, code := code, name := discount.name,
            type := discount.type,
            amount := ⟨formatMoneyAmount discountAmount, session.cart.total.currency⟩ }
        let currentTotal := num session.cart.total.amount
        let newTotal := max 0 (currentTotal - discountAmount)
        let updated := { session with cart := { session.cart with
          discount := some ⟨formatMoneyAmount discountAmount, session.cart.total.currency⟩,
          total := ⟨formatMoneyAmount newTotal, session.cart.total.currency⟩ } }
        ({ status := 200, success := true, newTotal := some updated.cart.total },
         { st with
           appliedDiscounts := alSet st.appliedDiscounts sessionId (existing ++ [applied]),
           sessions := alSet st.sessions sessionId updated })

/-- Interface of the injected payment handler as used by the complete route
(`config.paymentHandler`); `σ` is the handler's private state, `Except` models a
thrown exception. -/
structure PaymentOps (σ : Type) where
  createPaymentIntent : σ → Money → String → Except String (PaymentIntent × σ)
  confirmPayment : σ → String → Except String (PaymentIntent × σ)
  capturePayment : σ → String → Except String (PaymentIntent × σ)

/-- The default handler: `MockPaymentHandler` (the server completes with no partial
capture amount). -/
def mockPaymentOps : PaymentOps MockPaymentHandlerState where
  createPaymentIntent := fun st amount sid =>
    .ok (MockPaymentHandler.createPaymentIntent st amount sid)
  confirmPayment := MockPaymentHandler.confirmPayment
  capturePayment := fun st id => MockPaymentHandler.capturePayment st id none

/-- Model of `POST /ucp/checkout/:sessionId/complete`: rejects an unknown session
with 404 and an already-completed session with 400; then creates, confirms and
captures a payment intent; a `failed` confirmation returns the 400 "Payment failed"
response; a thrown exception anywhere in the `try` block returns the 500 "Payment
processing failed" response; on captured success it stores a new order and marks the
session `"COMPLETED"`. -/
def completeRoute {σ : Type} (ops : PaymentOps σ) (st : ServerState) (hs : σ)
    (sessionId freshOrderId : String) : Response × ServerState × σ :=
  match alGet st.sessions sessionId with
  | none => ({ status := 404, error := some "Session not found" }, st, hs)
  | some session =>
    if session.status = "COMPLETED" then
      ({ status := 400, error := some "Checkout already completed" }, st, hs)
    else
      match ops.createPaymentIntent hs session.cart.total sessionId with
      | .error _ => ({ status := 500, error := some "Payment processing failed" }, st, hs)
      | .ok (intent, hs1) =>
        match ops.confirmPayment hs1 intent.id with
        | .error _ => ({ status := 500, error := some "Payment processing failed" }, st, hs1)
        | .ok (confirmed, hs2) =>
          if confirmed.status = .failed then
            ({ status := 400, error := some "Payment failed" }, st, hs2)
          else
            match ops.capturePayment hs2 intent.id with
            | .error _ =>
              ({ status := 500, error := some "Payment processing failed" }, st, hs2)
            | .ok (captured, hs3) =>
              let order : Order :=
                { id := freshOrderId, checkoutSessionId := sessionId,
                  total := session.cart.total, paymentId := captured.id }
              ({ status := 200, success := true, orderId := some freshOrderId },
               { st with
                 orders := alSet st.orders freshOrderId order,
                 sessions := alSet st.sessions sessionId
                   { session with status := "COMPLETED" } },
               hs3)

/-! ## Security middleware (src `security.ts`, exported via the package index).
The HMAC-SHA-256/512 primitive lives in WebCrypto, outside the repository's sources,
so `computeSignature` is parametric in the hex-encoded keyed digest function; the
probabilistic store cleanups (`Math.random() < 0.01`) are omitted. -/

/-- Model of `computeSignature`: the hex-encoded HMAC of `timestamp + "." + body`
under the secret, for the chosen algorithm folded into `hmacHex`. -/
def computeSignature (hmacHex : String → String → String)
    (body timestamp secret : String) : String :=
  hmacHex secret (timestamp ++ "." ++ body)

/-- Model of `verifySignature`: recomputes the signature and compares it with the
supplied one using the constant-time loop (length check, then an OR-accumulation of
per-character XORs). -/
def verifySignature (hmacHex : String → String → String)
    (body timestamp signature secret : String) : Bool :=
  let expected := computeSignature hmacHex body timestamp secret
  if expected.length ≠ signature.length then false
  else
    ((expected.data.zip signature.data).foldl
      (fun r p => r ||| (p.1.toNat ^^^ p.2.toNat)) 0) == 0

/-- Response body of a route, as cached or replayed by the idempotency middleware.
`replayedTrue` denotes the literal placeholder object the middleware stores (a JSON
object whose single field `replayed` is `true`); `payload` is any other JSON text a
wrapped handler produces. -/
inductive Body where
  | payload : String → Body
  | replayedTrue : Body
deriving DecidableEq, Repr

/-- Cached idempotency entry (`response` body, `status` code, creation time). -/
structure IdempotencyEntry where
  response : Body
  status : ℕ
  createdAt : ℕ
deriving DecidableEq, Repr

/-- Outcome of one pass through the idempotency middleware: the response sent to the
client, whether the `X-Idempotent-Replayed` header was set, and whether the wrapped
handler (`next()`) ran. -/
structure IdempotencyResult where
  status : ℕ
  body : Option Body := none
  error : Option String := none
  replayedHeader : Bool := false
  handlerInvoked : Bool
deriving DecidableEq, Repr

/-- Model of one request through `idempotencyHandler`: non-mutating methods pass
straight through; a missing key passes through (or 400s when required); a known key
replays the stored entry without invoking the handler; a fresh key runs the handler,
returns its response, and stores the placeholder body `{ replayed: true }` together
with the handler's actual status code. -/
def idempotencyHandler (store : List (String × IdempotencyEntry))
    (required : Bool) (method : String) (idempotencyKey : Option String)
    (handler : Body × ℕ) (now : ℕ) :
    IdempotencyResult × List (String × IdempotencyEntry) :=
  if !(["POST", "PUT", "PATCH", "DELETE"].contains method) then
    ({ status := handler.2, body := some handler.1, handlerInvoked := true }, store)
  else
    match idempotencyKey with
    | none =>
      if required then
        ({ status := 400, error := some "Missing idempotency key",
           handlerInvoked := false }, store)
      else
        ({ status := handler.2, body := some handler.1, handlerInvoked := true }, store)
    | some key =>
      match alGet store key with
      | some existing =>
        ({ status := existing.status, body := some existing.response,
           replayedHeader := true, handlerInvoked := false }, store)
      | none =>
        ({ status := handler.2, body := some handler.1, handlerInvoked := true },
         alSet store key
           { response := Body.replayedTrue, status := handler.2, createdAt := now })

/-- Per-key fixed-window counter entry. -/
structure RateLimitEntry where
  count : ℕ
  resetAt : ℕ
deriving DecidableEq, Repr

/-- Model of the rate-limit store's `increment`: a missing or expired entry
(`now > resetAt`) restarts the window at count 1; otherwise the count increments. -/
def rlIncrement (store : List (String × RateLimitEntry)) (key : String)
    (now windowMs : ℕ) : RateLimitEntry × List (String × RateLimitEntry) :=
  match alGet store key with
  | none =>
    let entry : RateLimitEntry := { count := 1, resetAt := now + windowMs }
    (entry, alSet store key entry)
  | some existing =>
    if existing.resetAt < now then
      let entry : RateLimitEntry := { count := 1, resetAt := now + windowMs }
      (entry, alSet store key entry)
    else
      let entry := { existing with count := existing.count + 1 }
      (entry, alSet store key entry)

/-- Response of one pass through the rate limiter: rejection flag, status, the
`X-RateLimit-Remaining` value, and the `Retry-After` value when rejected. -/
structure RateLimitResponse where
  status : ℕ
  rejected : Bool
  remaining : ℕ
  retryAfter : Option ℕ := none
deriving DecidableEq, Repr

/-- `Math.ceil(n / 1000)` on a non-negative integer of milliseconds. -/
def ceilDiv1000 (n : ℕ) : ℕ := (n + 999) / 1000

/-- Model of one request through `rateLimiter`: increments the caller's counter,
passes the request when `count <= maxRequests`, otherwise rejects with 429 and
`Retry-After = ceil((resetAt - now) / 1000)` seconds.  Natural-number subtraction
models `Math.max(0, ...)` clamping on the remaining-requests header. -/
def rateLimiter (store : List (String × RateLimitEntry))
    (maxRequests windowMs : ℕ) (key : String) (now : ℕ) :
    RateLimitResponse × List (String × RateLimitEntry) :=
  let p := rlIncrement store key now windowMs
  if maxRequests < p.1.count then
    ({ status := 429, rejected := true, remaining := maxRequests - p.1.count,
       retryAfter := some (ceilDiv1000 (p.1.resetAt - now)) }, p.2)
  else
    ({ status := 200, rejected := false,
       remaining := maxRequests - p.1.count }, p.2)

/-! ## Theorems

Helper lemmas about the decimal-string embedding come first, then one theorem per
claim (with its witness or counterexample).  Batteries marks the `Rat` arithmetic
operations `@[irreducible]`, which blocks `decide` on concrete rational values; the
section-local attribute below restores the default reducibility so that concrete
executions of the model evaluate. -/

section ClaimTheorems

attribute [local semireducible] Rat.mul Rat.add Rat.sub Rat.inv

lemma digitChar_toNat (m : ℕ) (h : m < 10) : (digitChar m).toNat = 48 + m := by
  interval_cases m <;> decide

lemma digitChar_isDigit (m : ℕ) (h : m < 10) : (digitChar m).isDigit = true := by
  interval_cases m <;> decide

lemma digitChar_ne_dot (m : ℕ) (h : m < 10) : digitChar m ≠ '.' := by
  interval_cases m <;> decide

lemma digitsVal_append (l : List Char) (c : Char) :
    digitsVal (l ++ [c]) = 10 * digitsVal l + (c.toNat - 48) := by
  unfold digitsVal
  rw [List.foldl_append]
  rfl

lemma natDigitsAux_spec :
    ∀ fuel n, n < fuel →
      digitsVal (natDigitsAux fuel n) = n ∧
      natDigitsAux fuel n ≠ [] ∧
      ∀ c ∈ natDigitsAux fuel n, c.isDigit = true := by
  intro fuel
  induction fuel with
  | zero => intro n hn; omega
  | succ fuel ih =>
    intro n hn
    by_cases h10 : n < 10
    · have heq : natDigitsAux (fuel + 1) n = [digitChar n] := by
        simp [natDigitsAux, h10]
      rw [heq]
      refine ⟨?_, by simp, ?_⟩
      · unfold digitsVal
        simp [digitChar_toNat n h10]
      · intro c hc
        rw [List.mem_singleton] at hc
        rw [hc]
        exact digitChar_isDigit n h10
    · have heq : natDigitsAux (fuel + 1) n =
          natDigitsAux fuel (n / 10) ++ [digitChar (n % 10)] := by
        simp [natDigitsAux, h10]
      have hdiv : n / 10 < fuel := by
        have := Nat.div_lt_self (by omega : 0 < n) (by omega : 1 < 10)
        omega
      obtain ⟨hval, hne, hdig⟩ := ih (n / 10) hdiv
      have hmod : n % 10 < 10 := Nat.mod_lt _ (by omega)
      rw [heq]
      refine ⟨?_, by simp, ?_⟩
      · rw [digitsVal_append, hval, digitChar_toNat _ hmod]
        omega
      · intro c hc
        rcases List.mem_append.mp hc with hm | hm
        · exact hdig c hm
        · rw [List.mem_singleton] at hm
          rw [hm]
          exact digitChar_isDigit _ hmod

lemma natToString_digitsVal (n : ℕ) : digitsVal (natToString n).data = n :=
  (natDigitsAux_spec (n + 1) n (Nat.lt_succ_self n)).1

lemma natToString_ne_nil (n : ℕ) : (natToString n).data ≠ [] :=
  (natDigitsAux_spec (n + 1) n (Nat.lt_succ_self n)).2.1

lemma natToString_all_digits (n : ℕ) :
    ∀ c ∈ (natToString n).data, c.isDigit = true :=
  (natDigitsAux_spec (n + 1) n (Nat.lt_succ_self n)).2.2

lemma isDigits_natToString (n : ℕ) : isDigits (natToString n).data = true := by
  unfold isDigits
  rw [Bool.and_eq_true, List.all_eq_true]
  refine ⟨?_, natToString_all_digits n⟩
  rw [Bool.not_eq_true', Bool.eq_false_iff]
  intro he
  exact natToString_ne_nil n (List.isEmpty_iff.mp he)

lemma natDigitsAux_lt10 (fuel n : ℕ) (h : n < 10) :
    natDigitsAux (fuel + 1) n = [digitChar n] := by
  simp [natDigitsAux, h]

lemma pad2_spec (n : ℕ) (h : n < 100) :
    digitsVal (pad2 n).data = n ∧ (pad2 n).data.length = 2 ∧
      isDigits (pad2 n).data = true := by
  unfold pad2
  by_cases h10 : n < 10
  · rw [if_pos h10]
    have hn : (natToString n).data = [digitChar n] := by
      unfold natToString
      rw [natDigitsAux_lt10 n n h10]
    have hd : ("0" ++ natToString n).data = ['0', digitChar n] := by
      rw [String.data_append, hn]
      rfl
    rw [hd]
    refine ⟨?_, rfl, ?_⟩
    · unfold digitsVal
      simp [List.foldl, digitChar_toNat n h10]
    · unfold isDigits
      simp [digitChar_isDigit n h10]
  · rw [if_neg h10]
    have hn : (natToString n).data = [digitChar (n / 10), digitChar (n % 10)] := by
      unfold natToString
      have h1 : natDigitsAux (n + 1) n =
          natDigitsAux n (n / 10) ++ [digitChar (n % 10)] := by
        simp [natDigitsAux, h10]
      have h2 : natDigitsAux n (n / 10) = [digitChar (n / 10)] := by
        obtain ⟨m, rfl⟩ : ∃ m, n = m + 1 := ⟨n - 1, by omega⟩
        exact natDigitsAux_lt10 m _ (by omega)
      rw [h1, h2]
      rfl
    rw [hn]
    have hdivlt : n / 10 < 10 := by omega
    have hmodlt : n % 10 < 10 := by omega
    refine ⟨?_, rfl, ?_⟩
    · unfold digitsVal
      simp [List.foldl, digitChar_toNat _ hdivlt, digitChar_toNat _ hmodlt]
      omega
    · unfold isDigits
      simp [digitChar_isDigit _ hdivlt, digitChar_isDigit _ hmodlt]

lemma splitAtDot_append (l₁ l₂ : List Char) (h : '.' ∉ l₁) :
    splitAtDot (l₁ ++ '.' :: l₂) = (l₁, some l₂) := by
  induction l₁ with
  | nil => simp [splitAtDot]
  | cons c rest ih =>
    have hc : ¬ (c = '.') := fun e => h (by rw [e]; exact List.mem_cons_self _ _)
    have hr : '.' ∉ rest := fun hm => h (List.mem_cons_of_mem _ hm)
    show splitAtDot (c :: (rest ++ '.' :: l₂)) = (c :: rest, some l₂)
    unfold splitAtDot
    rw [if_neg hc, ih hr]

lemma ne_dash_of_isDigit (c : Char) (h : c.isDigit = true) : c ≠ '-' := by
  intro e
  rw [e] at h
  exact absurd h (by decide)

lemma ne_dot_of_isDigit (c : Char) (h : c.isDigit = true) : c ≠ '.' := by
  intro e
  rw [e] at h
  exact absurd h (by decide)

/-- Parsing back the two-decimal rendering of a non-negative value yields exactly
the rounded cent count divided by 100. -/
lemma parseDecimal?_formatNonneg2 (q : ℚ) :
    parseDecimal? (formatNonneg2 q) =
      some (((⌊q * 100 + 1 / 2⌋.toNat : ℕ) : ℚ) / 100) := by
  unfold formatNonneg2
  set n : ℕ := ⌊q * 100 + 1 / 2⌋.toNat with hn
  have hdata : (natToString (n / 100) ++ "." ++ pad2 (n % 100)).data
      = (natToString (n / 100)).data ++ '.' :: (pad2 (n % 100)).data := by
    rw [String.data_append, String.data_append]
    simp
  obtain ⟨c, rest, hcr⟩ := List.exists_cons_of_ne_nil (natToString_ne_nil (n / 100))
  have hcdig : c.isDigit = true := by
    refine natToString_all_digits (n / 100) c ?_
    rw [hcr]
    exact List.mem_cons_self _ _
  have hhead : (natToString (n / 100) ++ "." ++ pad2 (n % 100)).data.head? ≠ some '-' := by
    rw [hdata, hcr]
    intro hcon
    simp only [List.cons_append, List.head?_cons, Option.some.injEq] at hcon
    exact ne_dash_of_isDigit c hcdig hcon
  have hneg : ((natToString (n / 100) ++ "." ++ pad2 (n % 100)).data.head? == some '-')
      = false := beq_eq_false_iff_ne.mpr hhead
  have hnodot : '.' ∉ (natToString (n / 100)).data := by
    intro hm
    exact ne_dot_of_isDigit _ (natToString_all_digits (n / 100) _ hm) rfl
  have hsplit : splitAtDot ((natToString (n / 100)).data ++ '.' :: (pad2 (n % 100)).data)
      = ((natToString (n / 100)).data, some ((pad2 (n % 100)).data)) :=
    splitAtDot_append _ _ hnodot
  have hmodlt : n % 100 < 100 := Nat.mod_lt _ (by omega)
  obtain ⟨hpval, hplen, hpdig⟩ := pad2_spec (n % 100) hmodlt
  unfold parseDecimal?
  rw [hneg]
  simp only [if_false, Bool.false_eq_true]
  rw [hdata, hsplit]
  simp only [isDigits_natToString, if_true, hpdig]
  rw [natToString_digitsVal, hpval, hplen]
  have hval : ((n / 100 : ℕ) : ℚ) + ((n % 100 : ℕ) : ℚ) / (10 : ℚ) ^ 2
      = ((n : ℕ) : ℚ) / 100 := by
    have hdm : (100 : ℕ) * (n / 100) + n % 100 = n := Nat.div_add_mod n 100
    have : ((100 * (n / 100) + n % 100 : ℕ) : ℚ) = ((n : ℕ) : ℚ) := by
      rw [hdm]
    push_cast at this
    field_simp
    linarith
  rw [hval]

/-- On a non-negative value, `formatMoneyAmount` does not take the sign branch, and
parsing its output back yields the rounded cent count divided by 100. -/
lemma parseDecimal?_formatMoneyAmount (q : ℚ) (hq : 0 ≤ q) :
    parseDecimal? (formatMoneyAmount q) =
      some ((⌊q * 100 + 1 / 2⌋ : ℚ) / 100) := by
  unfold formatMoneyAmount
  rw [if_neg (not_lt.mpr hq), parseDecimal?_formatNonneg2]
  have h0 : (0 : ℤ) ≤ ⌊q * 100 + 1 / 2⌋ := by
    refine Int.floor_nonneg.mpr ?_
    positivity
  congr 1
  have h1 : ((⌊q * 100 + 1 / 2⌋.toNat : ℕ) : ℚ) = ((⌊q * 100 + 1 / 2⌋ : ℤ) : ℚ) := by
    exact_mod_cast congrArg (fun z : ℤ => (z : ℚ)) (Int.toNat_of_nonneg h0)
  rw [h1]

/-- Rendering a value with an exact cent count and parsing it back is the identity. -/
lemma parseDecimal?_format_exact (q : ℚ) (hq : 0 ≤ q) (hden : (q * 100).den = 1) :
    parseDecimal? (formatMoneyAmount q) = some q := by
  rw [parseDecimal?_formatMoneyAmount q hq]
  obtain ⟨k, hk⟩ : ∃ k : ℤ, (k : ℚ) = q * 100 :=
    ⟨(q * 100).num, by rw [← Rat.num_div_den (q * 100), hden]; simp⟩
  have hfl : ⌊q * 100 + 1 / 2⌋ = k := by
    rw [← hk, Int.floor_int_add]
    norm_num
  rw [hfl]
  congr 1
  rw [hk]
  field_simp

/-- Any parse of a two-decimal rendering of a non-negative value is non-negative. -/
lemma parse_format_nonneg (q r : ℚ) (hq : 0 ≤ q)
    (h : parseDecimal? (formatMoneyAmount q) = some r) : 0 ≤ r := by
  rw [parseDecimal?_formatMoneyAmount q hq] at h
  have h0 : (0 : ℤ) ≤ ⌊q * 100 + 1 / 2⌋ := by
    refine Int.floor_nonneg.mpr ?_
    positivity
  have : r = (⌊q * 100 + 1 / 2⌋ : ℚ) / 100 := (Option.some.injEq _ _ ▸ h).symm
  rw [this]
  positivity

/-- A negative decimal string is rejected by the amount validator, so
`parseMoneyAmount` returns `none` on it. -/
lemma parseMoneyAmount_eq_none_of_neg (s : String)
    (h : isNegativeDecimalString s = true) : parseMoneyAmount s = none := by
  unfold isNegativeDecimalString at h
  unfold parseMoneyAmount isValidMoneyAmount
  cases hp : parseDecimal? s with
  | none => simp [hp] at h
  | some q =>
    rw [hp] at h
    have hq : q < 0 := of_decide_eq_true h
    have : ¬ (0 ≤ q) := not_le.mpr hq
    simp [hp, this]

lemma alGet_alSet {α : Type} (l : List (String × α)) (k : String) (v : α) :
    alGet (alSet l k v) k = some v := by
  induction l with
  | nil => simp [alSet, alGet]
  | cons p rest ih =>
    obtain ⟨k₀, v₀⟩ := p
    by_cases h : (k₀ == k) = true
    · simp [alSet, alGet, h]
    · simp only [alSet, h, if_false, Bool.false_eq_true]
      simp only [alGet, h, if_false, Bool.false_eq_true]
      exact ih

lemma alGet_alSet_ne {α : Type} (l : List (String × α)) (k k' : String) (v : α)
    (hne : k ≠ k') : alGet (alSet l k v) k' = alGet l k' := by
  have hkk : (k == k') = false := beq_eq_false_iff_ne.mpr hne
  induction l with
  | nil => simp [alSet, alGet, hkk]
  | cons p rest ih =>
    obtain ⟨k₀, v₀⟩ := p
    by_cases h : (k₀ == k) = true
    · have hk0 : (k₀ == k') = false := by
        rw [eq_of_beq h]
        exact hkk
      simp [alSet, alGet, h, hkk, hk0]
    · simp only [alSet, h, if_false, Bool.false_eq_true]
      simp only [alGet]
      by_cases h' : (k₀ == k') = true
      · rw [if_pos h', if_pos h']
      · rw [if_neg (by simp [h']), if_neg (by simp [h'])]
        exact ih

/-- C5 counterexample: for the well-formed (grammar-conforming, non-negative)
same-currency pair a = 0.001 USD, b = 0.00 USD, the add-then-subtract round trip
returns 0.00 USD rather than a: both operations re-render through toFixed(2), so
sub-cent precision is lost and the arithmetic is not exact on all well-formed
decimal amounts. -/
theorem money_roundtrip_cex :
    isValidMoneyAmount "0.001" = true ∧
    isValidMoneyAmount "0.00" = true ∧
    (addMoney ⟨"0.001", "USD"⟩ ⟨"0.00", "USD"⟩).bind
      (fun m => subtractMoney m ⟨"0.00", "USD"⟩) = some ⟨"0.00", "USD"⟩ ∧
    Money.mk "0.00" "USD" ≠ Money.mk "0.001" "USD" := by
  decide

/-- C5 (amended): subtractMoney(addMoney(a, b), b) = a holds for same-currency
Money values with valid amounts provided the summed value's two-decimal rendering
is exact (it parses back to the sum) and a's amount is the canonical two-decimal
rendering of its value; in general the result is a's value re-rendered to two
decimals, because amounts pass through parseFloat and toFixed(2) — JavaScript
number arithmetic — rather than exact decimal arithmetic. -/
theorem subtractMoney_addMoney_roundtrip (a b : Money) (qa qb : ℚ)
    (hc : a.currency = b.currency)
    (ha : parseMoneyAmount a.amount = some qa)
    (hb : parseMoneyAmount b.amount = some qb)
    (hsum : parseMoneyAmount (formatMoneyAmount (qa + qb)) = some (qa + qb))
    (hcanon : formatMoneyAmount qa = a.amount) :
    (addMoney a b).bind (fun m => subtractMoney m b) = some a := by
  have hcc : ¬ (a.currency ≠ b.currency) := by simp [hc]
  unfold addMoney
  rw [if_neg hcc, ha, hb]
  show subtractMoney ⟨formatMoneyAmount (qa + qb), a.currency⟩ b = some a
  unfold subtractMoney
  rw [if_neg hcc]
  show (match parseMoneyAmount (formatMoneyAmount (qa + qb)),
          parseMoneyAmount b.amount with
        | some x, some y => some (Money.mk (formatMoneyAmount (x - y)) a.currency)
        | _, _ => none) = some a
  rw [hsum, hb]
  show some (Money.mk (formatMoneyAmount (qa + qb - qb)) a.currency) = some a
  rw [add_sub_cancel_right, hcanon]

/-- C5 witness: 1.00 USD + 2.50 USD − 2.50 USD round-trips to exactly 1.00 USD. -/
theorem subtractMoney_addMoney_roundtrip_witness :
    (addMoney ⟨"1.00", "USD"⟩ ⟨"2.50", "USD"⟩).bind
      (fun m => subtractMoney m ⟨"2.50", "USD"⟩) = some ⟨"1.00", "USD"⟩ :=
  subtractMoney_addMoney_roundtrip ⟨"1.00", "USD"⟩ ⟨"2.50", "USD"⟩ 1 (5 / 2) rfl
    (by decide) (by decide) (by decide) (by decide)

/-- C10: addMoney, subtractMoney and compareMoney all return null whenever either
operand's amount is a negative decimal string (the amount validator accepts only
non-negative values), even though subtractMoney itself can produce a Money whose
amount is negative — so such an output is rejected as an input by every subsequent
Money operation. -/
theorem money_ops_reject_negative_amounts :
    (∀ a b : Money,
        isNegativeDecimalString a.amount = true ∨
          isNegativeDecimalString b.amount = true →
        addMoney a b = none ∧ subtractMoney a b = none ∧ compareMoney a b = none) ∧
    (∃ a b c : Money,
        subtractMoney a b = some c ∧ isNegativeDecimalString c.amount = true) := by
  constructor
  · intro a b h
    have key : parseMoneyAmount a.amount = none ∨ parseMoneyAmount b.amount = none := by
      rcases h with h | h
      · exact Or.inl (parseMoneyAmount_eq_none_of_neg _ h)
      · exact Or.inr (parseMoneyAmount_eq_none_of_neg _ h)
    unfold addMoney subtractMoney compareMoney
    by_cases hcur : a.currency ≠ b.currency
    · rw [if_pos hcur, if_pos hcur, if_pos hcur]
      exact ⟨rfl, rfl, rfl⟩
    · rw [if_neg hcur, if_neg hcur, if_neg hcur]
      rcases key with hk | hk
      · rw [hk]
        rcases hpb : parseMoneyAmount b.amount with _ | qb <;> exact ⟨rfl, rfl, rfl⟩
      · rw [hk]
        rcases hpa : parseMoneyAmount a.amount with _ | qa <;> exact ⟨rfl, rfl, rfl⟩
  · exact ⟨⟨"5.00", "USD"⟩, ⟨"10.00", "USD"⟩, ⟨"-5.00", "USD"⟩, by decide, by decide⟩

/-- C10 witness: a negative left operand makes addMoney return null. -/
theorem money_ops_reject_negative_amounts_witness :
    addMoney ⟨"-1.00", "USD"⟩ ⟨"1.00", "USD"⟩ = none :=
  (money_ops_reject_negative_amounts.1 ⟨"-1.00", "USD"⟩ ⟨"1.00", "USD"⟩
    (Or.inl (by decide))).1

/-- C4 counterexample: `confirmPayment` on a stored intent whose status is
`cancelled` succeeds and moves it to `authorized`, although `cancelled` is terminal
in the canonical relation — so not every status change follows the canonical
transitions, and the illegal request does not fail at all. -/
theorem confirmPayment_cancelled_to_authorized_cex :
    (match MockPaymentHandler.confirmPayment
        { paymentIntents := [("pi1",
            { id := "pi1", status := PaymentStatus.cancelled,
              amount := ⟨"10.00", "USD"⟩, checkoutSessionId := "s1" })] } "pi1" with
      | Except.ok (intent, _) => some intent.status
      | Except.error _ => none) = some PaymentStatus.authorized ∧
    canonicalTransition PaymentStatus.cancelled PaymentStatus.authorized = false := by
  decide

/-- C4 (amended): `capturePayment` succeeds exactly from `authorized` (yielding
`captured`, a canonical transition), `cancelPayment` refuses `captured` intents but
moves any other stored intent — including terminal `failed`/`refunded` ones — to
`cancelled`, `refund` succeeds exactly from `captured` (yielding `refunded` or
`partially_refunded`, canonical transitions), and the rejections throw generic
errors rather than a distinguished `InvalidStateTransition`; `confirmPayment`
performs no state check at all — it sets any stored intent to `authorized` (or
`failed` under the failure flag) regardless of its current status, so `failed`,
`cancelled` and `refunded` are not terminal under `confirmPayment`. -/
theorem mock_handler_transition_guards (st : MockPaymentHandlerState)
    (pid : String) (amount? : Option Money) :
    (∀ intent' st',
        MockPaymentHandler.capturePayment st pid amount? = .ok (intent', st') →
        ∃ intent, alGet st.paymentIntents pid = some intent ∧
          intent.status = PaymentStatus.authorized ∧
          intent'.status = PaymentStatus.captured ∧
          canonicalTransition intent.status intent'.status = true) ∧
    (∀ intent' st',
        MockPaymentHandler.cancelPayment st pid = .ok (intent', st') →
        ∃ intent, alGet st.paymentIntents pid = some intent ∧
          intent.status ≠ PaymentStatus.captured ∧
          intent'.status = PaymentStatus.cancelled) ∧
    (∀ r st',
        MockPaymentHandler.refund st pid amount? = .ok (r, st') →
        ∃ intent, alGet st.paymentIntents pid = some intent ∧
          intent.status = PaymentStatus.captured ∧
          ∃ intent', alGet st'.paymentIntents pid = some intent' ∧
            (intent'.status = PaymentStatus.refunded ∨
              intent'.status = PaymentStatus.partiallyRefunded) ∧
            canonicalTransition intent.status intent'.status = true) ∧
    (∀ intent' st',
        MockPaymentHandler.confirmPayment st pid = .ok (intent', st') →
        intent'.status =
          (if st.shouldFailPayment then PaymentStatus.failed
           else PaymentStatus.authorized)) := by
  refine ⟨?_, ?_, ?_, ?_⟩
  · intro intent' st' h
    unfold MockPaymentHandler.capturePayment at h
    cases hg : alGet st.paymentIntents pid with
    | none =>
      simp only [hg] at h
      exact Except.noConfusion h
    | some intent =>
      simp only [hg] at h
      by_cases hs : intent.status = PaymentStatus.authorized
      · rw [if_neg (by simp [hs])] at h
        simp only [Except.ok.injEq, Prod.mk.injEq] at h
        refine ⟨intent, rfl, hs, ?_, ?_⟩
        · rw [← h.1]
        · rw [← h.1, hs]
          rfl
      · rw [if_pos (by simp [hs])] at h
        exact absurd h (by simp)
  · intro intent' st' h
    unfold MockPaymentHandler.cancelPayment at h
    cases hg : alGet st.paymentIntents pid with
    | none =>
      simp only [hg] at h
      exact Except.noConfusion h
    | some intent =>
      simp only [hg] at h
      by_cases hs : intent.status = PaymentStatus.captured
      · rw [if_pos hs] at h
        exact absurd h (by simp)
      · rw [if_neg hs] at h
        simp only [Except.ok.injEq, Prod.mk.injEq] at h
        exact ⟨intent, rfl, hs, by rw [← h.1]⟩
  · intro r st' h
    unfold MockPaymentHandler.refund at h
    cases hg : alGet st.paymentIntents pid with
    | none =>
      simp only [hg] at h
      exact Except.noConfusion h
    | some intent =>
      simp only [hg] at h
      by_cases hs : intent.status = PaymentStatus.captured
      · rw [if_neg (by simp [hs])] at h
        cases amount? with
        | none =>
          simp only [Except.ok.injEq, Prod.mk.injEq] at h
          refine ⟨intent, rfl, hs,
            { intent with status := PaymentStatus.refunded }, ?_, Or.inl rfl, ?_⟩
          · rw [← h.2]
            exact alGet_alSet _ _ _
          · rw [hs]
            rfl
        | some m =>
          simp only [Except.ok.injEq, Prod.mk.injEq] at h
          by_cases hm : m.amount = intent.amount.amount
          · rw [if_pos hm] at h
            refine ⟨intent, rfl, hs,
              { intent with status := PaymentStatus.refunded }, ?_, Or.inl rfl, ?_⟩
            · rw [← h.2]
              exact alGet_alSet _ _ _
            · rw [hs]
              rfl
          · rw [if_neg hm] at h
            refine ⟨intent, rfl, hs,
              { intent with status := PaymentStatus.partiallyRefunded }, ?_,
              Or.inr rfl, ?_⟩
            · rw [← h.2]
              exact alGet_alSet _ _ _
            · rw [hs]
              rfl
      · rw [if_pos (by simp [hs])] at h
        exact absurd h (by simp)
  · intro intent' st' h
    unfold MockPaymentHandler.confirmPayment at h
    cases hg : alGet st.paymentIntents pid with
    | none =>
      simp only [hg] at h
      exact Except.noConfusion h
    | some intent =>
      simp only [hg] at h
      by_cases hf : st.shouldFailPayment
      · rw [if_pos hf] at h ⊢
        simp only [Except.ok.injEq, Prod.mk.injEq] at h
        rw [← h.1]
      · rw [if_neg hf] at h ⊢
        simp only [Except.ok.injEq, Prod.mk.injEq] at h
        rw [← h.1]

/-- C4 witness: capturing a concrete authorized intent succeeds and the guard
theorem yields the canonical authorized-to-captured step. -/
theorem mock_handler_transition_guards_witness :
    ∃ intent,
      alGet ({ paymentIntents := [("pi1",
          { id := "pi1", status := PaymentStatus.authorized,
            amount := ⟨"10.00", "USD"⟩, checkoutSessionId := "s1" })] }
          : MockPaymentHandlerState).paymentIntents "pi1" = some intent ∧
      intent.status = PaymentStatus.authorized ∧
      PaymentStatus.captured = PaymentStatus.captured ∧
      canonicalTransition intent.status PaymentStatus.captured = true := by
  have h := (mock_handler_transition_guards
    { paymentIntents := [("pi1",
        { id := "pi1", status := PaymentStatus.authorized,
          amount := ⟨"10.00", "USD"⟩, checkoutSessionId := "s1" })] }
    "pi1" none).1
    { id := "pi1", status := PaymentStatus.captured,
      amount := ⟨"10.00", "USD"⟩, checkoutSessionId := "s1" }
    { paymentIntents := [("pi1",
        { id := "pi1", status := PaymentStatus.captured,
          amount := ⟨"10.00", "USD"⟩, checkoutSessionId := "s1" })] }
    (by rfl)
  obtain ⟨intent, h1, h2, h3, h4⟩ := h
  exact ⟨intent, h1, h2, rfl, by rw [← h3]; exact h4⟩

/-- C1 counterexample: completing the already-COMPLETED session "s1" (which has an
existing order "ord1") returns the 400 "Checkout already completed" error response
carrying no order at all, and leaves the stores unchanged — rather than returning
the existing Order as an idempotent success distinguished from a genuine error. -/
theorem completeRoute_completed_session_cex :
    (let st : ServerState :=
      { sessions := [("s1",
          { id := "s1", status := "COMPLETED",
            cart := { subtotal := ⟨"30.00", "USD"⟩, total := ⟨"30.00", "USD"⟩ } })],
        orders := [("ord1",
          { id := "ord1", checkoutSessionId := "s1",
            total := ⟨"30.00", "USD"⟩, paymentId := "pi1" })] }
     let r := completeRoute mockPaymentOps st {} "s1" "ord2"
     r.1.status = 400 ∧ r.1.error = some "Checkout already completed" ∧
       r.1.success = false ∧ r.1.orderId = none ∧ r.2.1 = st) := by
  decide

/-- C1 (amended): a second complete() call against an already-COMPLETED session
does not create a second Order — the whole server state, including the orders
store, is returned unchanged — but it is rejected with the 400 "Checkout already
completed" error rather than returning the existing Order as an idempotent
success. -/
theorem completeRoute_completed_session_no_second_order {σ : Type}
    (ops : PaymentOps σ) (st : ServerState) (hs : σ) (sid fid : String)
    (session : CheckoutSession)
    (hsess : alGet st.sessions sid = some session)
    (hstatus : session.status = "COMPLETED") :
    completeRoute ops st hs sid fid =
      ({ status := 400, error := some "Checkout already completed" }, st, hs) := by
  unfold completeRoute
  simp only [hsess]
  rw [if_pos hstatus]

/-- C1 witness: the amended theorem applied to a concrete completed session. -/
theorem completeRoute_completed_session_no_second_order_witness :
    completeRoute mockPaymentOps
      { sessions := [("s1",
          { id := "s1", status := "COMPLETED",
            cart := { subtotal := ⟨"30.00", "USD"⟩, total := ⟨"30.00", "USD"⟩ } })] }
      {} "s1" "ord2" =
      ({ status := 400, error := some "Checkout already completed" },
       { sessions := [("s1",
           { id := "s1", status := "COMPLETED",
             cart := { subtotal := ⟨"30.00", "USD"⟩, total := ⟨"30.00", "USD"⟩ } })] },
       {}) :=
  completeRoute_completed_session_no_second_order mockPaymentOps _ {} "s1" "ord2"
    { id := "s1", status := "COMPLETED",
      cart := { subtotal := ⟨"30.00", "USD"⟩, total := ⟨"30.00", "USD"⟩ } }
    (by rfl) rfl

/-- C2 counterexample: with an injected payment handler whose capture step throws,
complete() on session "s1" returns the generic 500 "Payment processing failed"
response — not the 400 "Payment failed" (PaymentFailed) response the confirm-failure
branch produces — though the server state is indeed unchanged. -/
theorem completeRoute_capture_failure_cex :
    (let failingCaptureOps : PaymentOps Unit :=
      { createPaymentIntent := fun _ amount sid =>
          .ok ({ id := "pi1", status := PaymentStatus.pending, amount := amount,
                 checkoutSessionId := sid }, ()),
        confirmPayment := fun _ i =>
          .ok ({ id := i, status := PaymentStatus.authorized,
                 amount := ⟨"30.00", "USD"⟩, checkoutSessionId := "s1" }, ()),
        capturePayment := fun _ _ => .error "gateway timeout" }
     let st : ServerState :=
      { sessions := [("s1",
          { id := "s1", status := "PENDING",
            cart := { subtotal := ⟨"30.00", "USD"⟩, total := ⟨"30.00", "USD"⟩ } })] }
     let r := completeRoute failingCaptureOps st () "s1" "ord1"
     r.1.status = 500 ∧ r.1.error = some "Payment processing failed" ∧
       ¬ (r.1.status = 400 ∧ r.1.error = some "Payment failed") ∧
       r.2.1 = st) := by
  decide

/-- C2 (amended): every payment-failure path of complete() leaves the server state
(sessions and orders) unchanged and creates no Order; a confirmation that returns a
failed intent is answered with the 400 "Payment failed" response, while a thrown
createPaymentIntent, confirmPayment or capturePayment — including a failing capture
step — is answered with the generic 500 "Payment processing failed" response rather
than the 400 PaymentFailed one. -/
theorem completeRoute_payment_failure_preserves_state {σ : Type}
    (ops : PaymentOps σ) (st : ServerState) (hs : σ) (sid fid : String)
    (session : CheckoutSession)
    (hsess : alGet st.sessions sid = some session)
    (hstatus : ¬ session.status = "COMPLETED") :
    (∀ intent hs1 confirmed hs2,
        ops.createPaymentIntent hs session.cart.total sid = .ok (intent, hs1) →
        ops.confirmPayment hs1 intent.id = .ok (confirmed, hs2) →
        confirmed.status = PaymentStatus.failed →
        completeRoute ops st hs sid fid =
          ({ status := 400, error := some "Payment failed" }, st, hs2)) ∧
    (∀ e,
        ops.createPaymentIntent hs session.cart.total sid = .error e →
        completeRoute ops st hs sid fid =
          ({ status := 500, error := some "Payment processing failed" }, st, hs)) ∧
    (∀ intent hs1 e,
        ops.createPaymentIntent hs session.cart.total sid = .ok (intent, hs1) →
        ops.confirmPayment hs1 intent.id = .error e →
        completeRoute ops st hs sid fid =
          ({ status := 500, error := some "Payment processing failed" }, st, hs1)) ∧
    (∀ intent hs1 confirmed hs2 e,
        ops.createPaymentIntent hs session.cart.total sid = .ok (intent, hs1) →
        ops.confirmPayment hs1 intent.id = .ok (confirmed, hs2) →
        ¬ confirmed.status = PaymentStatus.failed →
        ops.capturePayment hs2 intent.id = .error e →
        completeRoute ops st hs sid fid =
          ({ status := 500, error := some "Payment processing failed" }, st, hs2)) := by
  refine ⟨?_, ?_, ?_, ?_⟩
  · intro intent hs1 confirmed hs2 hcreate hconfirm hfail
    unfold completeRoute
    simp only [hsess]
    rw [if_neg hstatus]
    simp only [hcreate, hconfirm]
    rw [if_pos hfail]
  · intro e hcreate
    unfold completeRoute
    simp only [hsess]
    rw [if_neg hstatus]
    simp only [hcreate]
  · intro intent hs1 e hcreate hconfirm
    unfold completeRoute
    simp only [hsess]
    rw [if_neg hstatus]
    simp only [hcreate, hconfirm]
  · intro intent hs1 confirmed hs2 e hcreate hconfirm hnf hcapture
    unfold completeRoute
    simp only [hsess]
    rw [if_neg hstatus]
    simp only [hcreate, hconfirm]
    rw [if_neg hnf]
    simp only [hcapture]

/-- C2 witness: with the mock handler configured to fail, complete() on a concrete
pending session returns the 400 "Payment failed" response and leaves the server
state unchanged. -/
theorem completeRoute_payment_failure_preserves_state_witness :
    completeRoute mockPaymentOps
      { sessions := [("s1",
          { id := "s1", status := "PENDING",
            cart := { subtotal := ⟨"30.00", "USD"⟩, total := ⟨"30.00", "USD"⟩ } })] }
      { shouldFailPayment := true } "s1" "ord1" =
      ({ status := 400, error := some "Payment failed" },
       { sessions := [("s1",
           { id := "s1", status := "PENDING",
             cart := { subtotal := ⟨"30.00", "USD"⟩, total := ⟨"30.00", "USD"⟩ } })] },
       { paymentIntents := [("pi_mock_1",
           { id := "pi_mock_1", status := PaymentStatus.failed,
             amount := ⟨"30.00", "USD"⟩, checkoutSessionId := "s1",
             errorMessage := some "Payment declined" })],
         idCounter := 1, shouldFailPayment := true }) :=
  (completeRoute_payment_failure_preserves_state mockPaymentOps _
    { shouldFailPayment := true } "s1" "ord1"
    { id := "s1", status := "PENDING",
      cart := { subtotal := ⟨"30.00", "USD"⟩, total := ⟨"30.00", "USD"⟩ } }
    (by rfl) (by decide)).1
    { id := "pi_mock_1", status := PaymentStatus.failed,
      amount := ⟨"30.00", "USD"⟩, checkoutSessionId := "s1",
      errorMessage := some "Payment declined" }
    { paymentIntents := [("pi_mock_1",
        { id := "pi_mock_1", status := PaymentStatus.failed,
          amount := ⟨"30.00", "USD"⟩, checkoutSessionId := "s1",
          errorMessage := some "Payment declined" })],
      idCounter := 1, shouldFailPayment := true }
    { id := "pi_mock_1", status := PaymentStatus.failed,
      amount := ⟨"30.00", "USD"⟩, checkoutSessionId := "s1",
      errorMessage := some "Payment declined" }
    { paymentIntents := [("pi_mock_1",
        { id := "pi_mock_1", status := PaymentStatus.failed,
          amount := ⟨"30.00", "USD"⟩, checkoutSessionId := "s1",
          errorMessage := some "Payment declined" })],
      idCounter := 1, shouldFailPayment := true }
    (by rfl) (by rfl) rfl

/-- C7 counterexample: on a cart with subtotal 4.00, applying FLAT5 (capped to
4.00) and then SAVE20 (0.80) records a combined discount of 4.80 — above the
subtotal — while the total is clamped at 0.00: the combined discount is not capped
at the subtotal. -/
theorem discount_stacking_exceeds_subtotal_cex :
    (let st : ServerState :=
      { sessions := [("s1",
          { id := "s1", status := "PENDING",
            cart := { subtotal := ⟨"4.00", "USD"⟩, total := ⟨"4.00", "USD"⟩ } })] }
     let st₁ := (applyDiscountRoute st "s1" "FLAT5").2
     let st₂ := (applyDiscountRoute st₁ "s1" "SAVE20").2
     (alGet st₂.appliedDiscounts "s1").map (List.map (fun d => d.amount.amount)) =
        some ["4.00", "0.80"] ∧
     num "4.00" < num "4.00" + num "0.80" ∧
     (alGet st₂.sessions "s1").map (fun s => s.cart.total.amount) = some "0.00") := by
  decide

/-- C7 (amended): the total produced by any successful discount application is the
two-decimal rendering of `max 0 (currentTotal - discountAmount)`, a non-negative
value, so a session's total can never become negative through discount
applications (any parse of the stored total amount is non-negative); a
FIXED_AMOUNT discount is individually capped at the subtotal; but the combined
discount across stacked codes is not capped at the subtotal — two codes together
can exceed it, the total merely clamping at zero. -/
theorem discount_total_never_negative (st : ServerState) (sid code : String) :
    (∀ resp st' m,
        applyDiscountRoute st sid code = (resp, st') →
        resp.newTotal = some m →
        (∃ t : ℚ, 0 ≤ t ∧ m.amount = formatMoneyAmount t) ∧
        (∀ q, parseDecimal? m.amount = some q → 0 ≤ q) ∧
        (∀ s', alGet st'.sessions sid = some s' → s'.cart.total = m)) ∧
    (∀ session discount,
        alGet st.sessions sid = some session →
        DISCOUNT_CODES (toUpperCase code) = some discount →
        discount.type = DiscountType.fixedAmount →
        min discount.value (num session.cart.subtotal.amount) ≤
          num session.cart.subtotal.amount) ∧
    (let st₀ : ServerState :=
      { sessions := [("s1",
          { id := "s1", status := "PENDING",
            cart := { subtotal := ⟨"4.00", "USD"⟩, total := ⟨"4.00", "USD"⟩ } })] }
     let st₂ := (applyDiscountRoute (applyDiscountRoute st₀ "s1" "FLAT5").2
        "s1" "SAVE20").2
     (alGet st₂.appliedDiscounts "s1").map (List.map (fun d => d.amount.amount)) =
        some ["4.00", "0.80"] ∧
     num "4.00" < num "4.00" + num "0.80") := by
  refine ⟨?_, ?_, by decide⟩
  · intro resp st' m h hm
    unfold applyDiscountRoute at h
    cases hg : alGet st.sessions sid with
    | none =>
      simp only [hg] at h
      cases h
      simp at hm
    | some session =>
      simp only [hg] at h
      cases hd : DISCOUNT_CODES (toUpperCase code) with
      | none =>
        simp only [hd] at h
        cases h
        simp at hm
      | some discount =>
        simp only [hd] at h
        by_cases hex : ((alGet st.appliedDiscounts sid).getD []).any
            (fun d => d.discountId == discount.id)
        · rw [if_pos hex] at h
          cases h
          simp at hm
        · rw [if_neg hex] at h
          cases h
          simp only [Option.some.injEq] at hm
          subst hm
          constructor
          · exact ⟨_, le_max_left 0 _, rfl⟩
          constructor
          · intro q hq
            exact parse_format_nonneg _ q (le_max_left 0 _) hq
          · intro s' hs'
            rw [alGet_alSet] at hs'
            cases hs'
            rfl
  · intro session discount hsess hdisc htype
    exact min_le_right _ _

/-- C7 witness: applying SAVE20 to a 100.00 cart yields the non-negative total
80.00, matching the spec's own example. -/
theorem discount_total_never_negative_witness :
    (∃ t : ℚ, 0 ≤ t ∧ (Money.mk "80.00" "USD").amount = formatMoneyAmount t) ∧
    (∀ q, parseDecimal? (Money.mk "80.00" "USD").amount = some q → 0 ≤ q) ∧
    (∀ s',
        alGet (applyDiscountRoute
          { sessions := [("s1",
              { id := "s1", status := "PENDING",
                cart := { subtotal := ⟨"100.00", "USD"⟩,
                          total := ⟨"100.00", "USD"⟩ } })] }
          "s1" "SAVE20").2.sessions "s1" = some s' →
        s'.cart.total = Money.mk "80.00" "USD") :=
  (discount_total_never_negative
    { sessions := [("s1",
        { id := "s1", status := "PENDING",
          cart := { subtotal := ⟨"100.00", "USD"⟩,
                    total := ⟨"100.00", "USD"⟩ } })] }
    "s1" "SAVE20").1
    (applyDiscountRoute
      { sessions := [("s1",
          { id := "s1", status := "PENDING",
            cart := { subtotal := ⟨"100.00", "USD"⟩,
                      total := ⟨"100.00", "USD"⟩ } })] }
      "s1" "SAVE20").1
    (applyDiscountRoute
      { sessions := [("s1",
          { id := "s1", status := "PENDING",
            cart := { subtotal := ⟨"100.00", "USD"⟩,
                      total := ⟨"100.00", "USD"⟩ } })] }
      "s1" "SAVE20").2
    (Money.mk "80.00" "USD") rfl (by decide)

/-- C3: the idempotency middleware does not replay the actual response body.  A
first POST carrying key "k" whose handler answers with a JSON payload and status
200 stores the placeholder object (the literal whose single field `replayed` is
`true`) together with the actual status; a second request with the same key does
not invoke the handler again — that half of the claim holds — and replays the
original status, but its body is the placeholder, not the stored handler body. -/
theorem idempotencyHandler_replays_placeholder :
    (let first := idempotencyHandler [] false "POST" (some "k")
       (Body.payload "orderbody", 200) 5
     let second := idempotencyHandler first.2 false "POST" (some "k")
       (Body.payload "orderbody", 200) 6
     first.1.body = some (Body.payload "orderbody") ∧
     first.1.status = 200 ∧
     first.1.handlerInvoked = true ∧
     first.2 = [("k",
       { response := Body.replayedTrue, status := 200, createdAt := 5 })] ∧
     second.1.status = 200 ∧
     second.1.handlerInvoked = false ∧
     second.1.replayedHeader = true ∧
     second.1.body = some Body.replayedTrue ∧
     some Body.replayedTrue ≠ some (Body.payload "orderbody")) := by
  decide

lemma lor_eq_zero_iff (a b : ℕ) : a ||| b = 0 ↔ a = 0 ∧ b = 0 := by
  constructor
  · intro h
    constructor <;> refine Nat.zero_of_testBit_eq_false fun i => ?_
    · have hb := congrArg (fun n => Nat.testBit n i) h
      simp only [Nat.testBit_lor, Nat.zero_testBit] at hb
      exact (Bool.or_eq_false_iff.mp hb).1
    · have hb := congrArg (fun n => Nat.testBit n i) h
      simp only [Nat.testBit_lor, Nat.zero_testBit] at hb
      exact (Bool.or_eq_false_iff.mp hb).2
  · rintro ⟨rfl, rfl⟩
    rfl

lemma char_toNat_inj {c d : Char} (h : c.toNat = d.toNat) : c = d := by
  have hc := congrArg Char.ofNat h
  rwa [Char.ofNat_toNat, Char.ofNat_toNat] at hc

lemma foldl_lor_xor_eq_zero (l : List (Char × Char)) :
    ∀ a : ℕ,
      (l.foldl (fun r p => r ||| (p.1.toNat ^^^ p.2.toNat)) a = 0 ↔
        a = 0 ∧ ∀ p ∈ l, p.1 = p.2) := by
  induction l with
  | nil =>
    intro a
    simp
  | cons p rest ih =>
    intro a
    rw [List.foldl_cons, ih]
    constructor
    · rintro ⟨h1, h2⟩
      obtain ⟨ha, hx⟩ := (lor_eq_zero_iff _ _).mp h1
      refine ⟨ha, ?_⟩
      intro q hq
      rcases List.mem_cons.mp hq with h | h
      · rw [h]
        exact char_toNat_inj (Nat.xor_eq_zero.mp hx)
      · exact h2 q h
    · rintro ⟨ha, h2⟩
      refine ⟨?_, fun q hq => h2 q (List.mem_cons_of_mem _ hq)⟩
      have hp := h2 p (List.mem_cons_self _ _)
      rw [ha, hp]
      simp

lemma eq_of_zip_forall_eq (l₁ : List Char) :
    ∀ l₂ : List Char, l₁.length = l₂.length →
      (∀ p ∈ l₁.zip l₂, p.1 = p.2) → l₁ = l₂ := by
  induction l₁ with
  | nil =>
    intro l₂ hlen _
    cases l₂ with
    | nil => rfl
    | cons c t => simp at hlen
  | cons c t ih =>
    intro l₂ hlen h
    cases l₂ with
    | nil => simp at hlen
    | cons c₂ t₂ =>
      have hc := h (c, c₂) (by simp [List.zip_cons_cons])
      simp only at hc
      rw [hc]
      have ht := ih t₂ (by simpa using hlen)
        (fun p hp => h p (by simp [List.zip_cons_cons, hp]))
      rw [ht]

lemma zip_self_forall_eq (l : List Char) : ∀ p ∈ l.zip l, p.1 = p.2 := by
  induction l with
  | nil =>
    intro p hp
    simp at hp
  | cons c t ih =>
    intro p hp
    rw [List.zip_cons_cons] at hp
    rcases List.mem_cons.mp hp with h | h
    · rw [h]
    · exact ih p h

/-- The constant-time loop of `verifySignature` is functionally string equality of
the supplied signature with the recomputed one. -/
lemma verifySignature_true_iff (hmacHex : String → String → String)
    (body timestamp signature secret : String) :
    verifySignature hmacHex body timestamp signature secret = true ↔
      signature = computeSignature hmacHex body timestamp secret := by
  unfold verifySignature
  by_cases hlen :
      (computeSignature hmacHex body timestamp secret).length = signature.length
  · rw [if_neg (by simp [hlen])]
    rw [beq_iff_eq, foldl_lor_xor_eq_zero]
    constructor
    · rintro ⟨-, h⟩
      refine (String.ext ?_).symm
      exact eq_of_zip_forall_eq _ _ hlen h
    · rintro rfl
      exact ⟨rfl, zip_self_forall_eq _⟩
  · rw [if_pos hlen]
    constructor
    · intro h
      exact absurd h (by simp)
    · rintro rfl
      exact absurd rfl hlen

/-- C8: verifySignature returns true exactly when the supplied signature equals
the hex-encoded keyed digest of `timestamp ++ "." ++ body` under the secret (the
HMAC primitive lives in WebCrypto, outside the sources, so it is abstracted as
`hmacHex`); consequently a body whose digest differs from the original one — in
particular any tampered body, absent an HMAC collision — fails verification
against the previously valid signature.  The constant-time aspect of the
comparison is a timing property outside the model; functionally the loop is
string equality. -/
theorem verifySignature_iff_matching_signature
    (hmacHex : String → String → String)
    (body timestamp signature secret : String) :
    (verifySignature hmacHex body timestamp signature secret = true ↔
      signature = computeSignature hmacHex body timestamp secret) ∧
    (∀ body',
        hmacHex secret (timestamp ++ "." ++ body') ≠
          hmacHex secret (timestamp ++ "." ++ body) →
        verifySignature hmacHex body' timestamp
          (computeSignature hmacHex body timestamp secret) secret = false) := by
  refine ⟨verifySignature_true_iff hmacHex body timestamp signature secret, ?_⟩
  intro body' hne
  cases hv : verifySignature hmacHex body' timestamp
      (computeSignature hmacHex body timestamp secret) secret with
  | false => rfl
  | true =>
    have heq := (verifySignature_true_iff hmacHex body' timestamp
      (computeSignature hmacHex body timestamp secret) secret).mp hv
    exact (hne heq.symm).elim

/-- C8 witness: with a concrete injective digest, the genuine signature verifies
and a one-character body change fails. -/
theorem verifySignature_iff_matching_signature_witness :
    verifySignature (fun s m => s ++ m) "a" "1"
      (computeSignature (fun s m => s ++ m) "a" "1" "k") "k" = true ∧
    verifySignature (fun s m => s ++ m) "b" "1"
      (computeSignature (fun s m => s ++ m) "a" "1" "k") "k" = false :=
  ⟨(verifySignature_iff_matching_signature (fun s m => s ++ m) "a" "1"
      (computeSignature (fun s m => s ++ m) "a" "1" "k") "k").1.mpr rfl,
   (verifySignature_iff_matching_signature (fun s m => s ++ m) "a" "1"
      (computeSignature (fun s m => s ++ m) "a" "1" "k") "k").2 "b" (by decide)⟩

lemma rlIncrement_fresh (store : List (String × RateLimitEntry)) (key : String)
    (now windowMs : ℕ) (h : alGet store key = none) :
    rlIncrement store key now windowMs =
      ({ count := 1, resetAt := now + windowMs },
       alSet store key { count := 1, resetAt := now + windowMs }) := by
  unfold rlIncrement
  simp only [h]

lemma rlIncrement_inWindow (store : List (String × RateLimitEntry)) (key : String)
    (now windowMs : ℕ) (entry : RateLimitEntry)
    (h : alGet store key = some entry) (hw : ¬ entry.resetAt < now) :
    rlIncrement store key now windowMs =
      ({ entry with count := entry.count + 1 },
       alSet store key { entry with count := entry.count + 1 }) := by
  unfold rlIncrement
  simp only [h]
  rw [if_neg hw]

lemma rlIncrement_expired (store : List (String × RateLimitEntry)) (key : String)
    (now windowMs : ℕ) (entry : RateLimitEntry)
    (h : alGet store key = some entry) (hw : entry.resetAt < now) :
    rlIncrement store key now windowMs =
      ({ count := 1, resetAt := now + windowMs },
       alSet store key { count := 1, resetAt := now + windowMs }) := by
  unfold rlIncrement
  simp only [h]
  rw [if_pos hw]

lemma rateLimiter_pass (store : List (String × RateLimitEntry))
    (maxRequests windowMs : ℕ) (key : String) (now : ℕ)
    (h : ¬ maxRequests < (rlIncrement store key now windowMs).1.count) :
    rateLimiter store maxRequests windowMs key now =
      ({ status := 200, rejected := false,
         remaining := maxRequests - (rlIncrement store key now windowMs).1.count },
       (rlIncrement store key now windowMs).2) := by
  unfold rateLimiter
  rw [if_neg h]

lemma rateLimiter_reject (store : List (String × RateLimitEntry))
    (maxRequests windowMs : ℕ) (key : String) (now : ℕ)
    (h : maxRequests < (rlIncrement store key now windowMs).1.count) :
    rateLimiter store maxRequests windowMs key now =
      ({ status := 429, rejected := true,
         remaining := maxRequests - (rlIncrement store key now windowMs).1.count,
         retryAfter := some (ceilDiv1000
           ((rlIncrement store key now windowMs).1.resetAt - now)) },
       (rlIncrement store key now windowMs).2) := by
  unfold rateLimiter
  rw [if_pos h]

/-- C9 counterexample: with 2 requests per 1000 ms window, a third request at
exactly the window's reset time is still counted in-window (the store resets only
when `now > resetAt`) and is rejected with 429 — but its Retry-After is 0, not
strictly greater than 0. -/
theorem rateLimiter_retry_after_zero_cex :
    (let r1 := rateLimiter [] 2 1000 "a" 0
     let r2 := rateLimiter r1.2 2 1000 "a" 0
     let r3 := rateLimiter r2.2 2 1000 "a" 1000
     r1.1.rejected = false ∧ r2.1.rejected = false ∧
     r3.1.rejected = true ∧ r3.1.status = 429 ∧ r3.1.retryAfter = some 0) := by
  decide

/-- C9 (amended): with a maximum of 2 requests per window, the first two requests
of a fresh client key pass and the third in-window request is rejected with 429
and `Retry-After = ceil((resetAt - now)/1000)`, which is strictly positive
whenever the request arrives strictly before the reset time (at exactly the reset
time — still in-window for the store — it is 0); the per-key counter increments on
every in-window request, an expired window restarts the counter at 1, and one
key's request never changes another key's entry. -/
theorem rateLimiter_window_behaviour
    (store : List (String × RateLimitEntry)) (key : String)
    (windowMs maxRequests now t1 t2 t3 : ℕ) :
    (alGet store key = none → t2 ≤ t1 + windowMs → t3 ≤ t1 + windowMs →
      (rateLimiter store 2 windowMs key t1).1.rejected = false ∧
      (rateLimiter (rateLimiter store 2 windowMs key t1).2
        2 windowMs key t2).1.rejected = false ∧
      (rateLimiter (rateLimiter (rateLimiter store 2 windowMs key t1).2
        2 windowMs key t2).2 2 windowMs key t3).1.rejected = true ∧
      (rateLimiter (rateLimiter (rateLimiter store 2 windowMs key t1).2
        2 windowMs key t2).2 2 windowMs key t3).1.status = 429 ∧
      (rateLimiter (rateLimiter (rateLimiter store 2 windowMs key t1).2
        2 windowMs key t2).2 2 windowMs key t3).1.retryAfter =
          some (ceilDiv1000 (t1 + windowMs - t3)) ∧
      (t3 < t1 + windowMs → 0 < ceilDiv1000 (t1 + windowMs - t3))) ∧
    (∀ entry, alGet store key = some entry → ¬ entry.resetAt < now →
      (rlIncrement store key now windowMs).1.count = entry.count + 1) ∧
    (∀ entry, alGet store key = some entry → entry.resetAt < now →
      (rlIncrement store key now windowMs).1 =
        { count := 1, resetAt := now + windowMs }) ∧
    (∀ k', key ≠ k' →
      alGet (rateLimiter store maxRequests windowMs key now).2 k' =
        alGet store k') := by
  refine ⟨?_, ?_, ?_, ?_⟩
  · intro hfresh h2 h3
    have i1 := rlIncrement_fresh store key t1 windowMs hfresh
    have r1eq := rateLimiter_pass store 2 windowMs key t1
      (by rw [i1]; show ¬ (2:ℕ) < 1; decide)
    simp only [r1eq, i1]
    have i2 := rlIncrement_inWindow (alSet store key ⟨1, t1 + windowMs⟩) key t2
      windowMs ⟨1, t1 + windowMs⟩ (alGet_alSet _ _ _) (by simp; omega)
    have r2eq := rateLimiter_pass (alSet store key ⟨1, t1 + windowMs⟩)
      2 windowMs key t2 (by rw [i2]; show ¬ (2:ℕ) < 2; decide)
    simp only [r2eq, i2]
    have i3 := rlIncrement_inWindow
      (alSet (alSet store key ⟨1, t1 + windowMs⟩) key ⟨2, t1 + windowMs⟩) key t3
      windowMs ⟨2, t1 + windowMs⟩ (alGet_alSet _ _ _) (by simp; omega)
    have r3eq := rateLimiter_reject
      (alSet (alSet store key ⟨1, t1 + windowMs⟩) key ⟨2, t1 + windowMs⟩)
      2 windowMs key t3 (by rw [i3]; show (2:ℕ) < 3; decide)
    simp only [r3eq, i3]
    refine ⟨trivial, trivial, trivial, trivial, trivial, ?_⟩
    intro hlt
    unfold ceilDiv1000
    omega
  · intro entry hentry hw
    rw [rlIncrement_inWindow store key now windowMs entry hentry hw]
  · intro entry hentry hw
    rw [rlIncrement_expired store key now windowMs entry hentry hw]
  · intro k' hk
    by_cases h : maxRequests < (rlIncrement store key now windowMs).1.count
    · rw [rateLimiter_reject store maxRequests windowMs key now h]
      show alGet (rlIncrement store key now windowMs).2 k' = alGet store k'
      unfold rlIncrement
      cases hg : alGet store key with
      | none =>
        simp only [hg]
        exact alGet_alSet_ne _ _ _ _ hk
      | some entry =>
        simp only [hg]
        by_cases hw : entry.resetAt < now
        · rw [if_pos hw]
          exact alGet_alSet_ne _ _ _ _ hk
        · rw [if_neg hw]
          exact alGet_alSet_ne _ _ _ _ hk
    · rw [rateLimiter_pass store maxRequests windowMs key now h]
      show alGet (rlIncrement store key now windowMs).2 k' = alGet store k'
      unfold rlIncrement
      cases hg : alGet store key with
      | none =>
        simp only [hg]
        exact alGet_alSet_ne _ _ _ _ hk
      | some entry =>
        simp only [hg]
        by_cases hw : entry.resetAt < now
        · rw [if_pos hw]
          exact alGet_alSet_ne _ _ _ _ hk
        · rw [if_neg hw]
          exact alGet_alSet_ne _ _ _ _ hk

/-- C9 witness: a fresh key, three requests at 0 ms, 10 ms and 500 ms in a
1000 ms window — the third is rejected with a strictly positive Retry-After. -/
theorem rateLimiter_window_behaviour_witness :
    (rateLimiter [] 2 1000 "a" 0).1.rejected = false ∧
    (rateLimiter (rateLimiter [] 2 1000 "a" 0).2 2 1000 "a" 10).1.rejected = false ∧
    (rateLimiter (rateLimiter (rateLimiter [] 2 1000 "a" 0).2 2 1000 "a" 10).2
      2 1000 "a" 500).1.rejected = true ∧
    (rateLimiter (rateLimiter (rateLimiter [] 2 1000 "a" 0).2 2 1000 "a" 10).2
      2 1000 "a" 500).1.status = 429 ∧
    (rateLimiter (rateLimiter (rateLimiter [] 2 1000 "a" 0).2 2 1000 "a" 10).2
      2 1000 "a" 500).1.retryAfter = some (ceilDiv1000 (0 + 1000 - 500)) ∧
    (500 < 0 + 1000 → 0 < ceilDiv1000 (0 + 1000 - 500)) :=
  (rateLimiter_window_behaviour [] "a" 1000 2 0 0 10 500).1 rfl
    (by omega) (by omega)

end ClaimTheorems

end UCP
